import Mathlib

/-!
Shallow embedding of `scripts/print_dev_summary.py`: a tiny indentation-driven
YAML-subset parser (`parse_yaml`) and a fixed-path reporter (`main`).

Python strings are modelled as `List Char` (`PyStr`); the mutable, aliased
`dict` objects of the Python parser are modelled with an arena of mapping
nodes, the parse stack holding `(indentation depth, node id)` frames exactly
as the Python stack holds `(indent, dict)` pairs.  A Python statement that
would raise (the `stack[-1]` access on an empty stack) is modelled by the
parser step returning `none`.
-/

set_option autoImplicit false

namespace DevSummary

/-- A Python string, modelled as its list of characters. -/
abbrev PyStr := List Char

/-- Python `str.strip()` whitespace test (ASCII whitespace). -/
def isSpaceChar (c : Char) : Bool :=
  c == ' ' || c == '\t' || c == '\n' || c == '\r' || c == '\x0b' || c == '\x0c'

/-- Python `s.strip()`: drop leading and trailing whitespace. -/
def pyStrip (s : PyStr) : PyStr :=
  ((s.dropWhile isSpaceChar).reverse.dropWhile isSpaceChar).reverse

/-- Python `len(raw) - len(raw.lstrip(" "))` from line 26 of the script:
the count of leading space characters (tabs are not counted). -/
def indentOf (raw : PyStr) : Nat :=
  raw.length - (raw.dropWhile (fun c => c == ' ')).length

/-- Python `stripped.partition(":")` restricted to the two components the
script uses (line 27): the text before the first `:` and the text after it;
when no `:` occurs the whole string is the key and the value is empty. -/
def partitionColon : PyStr → PyStr × PyStr
  | [] => ([], [])
  | c :: rest =>
    if c = ':' then ([], rest)
    else
      let p := partitionColon rest
      (c :: p.1, p.2)

/-- The quote-stripping step of lines 43-47: if the value starts and ends
with `"`, or starts and ends with `'`, take `value[1:-1]`. -/
def stripQuotes (value : PyStr) : PyStr :=
  if (value.headD ' ' = '"' ∧ value.getLast? = some '"')
      ∨ (value.headD ' ' = '\x27' ∧ value.getLast? = some '\x27') then
    (value.drop 1).dropLast
  else value

/-- A value stored inside a mapping node of the parser: a scalar string, the
empty list literal `[]` (the only list the parser ever builds, line 41), or a
reference to another mapping node in the arena (a Python `dict` object). -/
inductive Val where
  | scalar : PyStr → Val
  | emptyList : Val
  | mapRef : Nat → Val
deriving DecidableEq, Repr

/-- A mapping node: insertion-ordered key/value entries (a Python `dict`). -/
abbrev Node := List (PyStr × Val)

/-- Python `d[k] = v` on an insertion-ordered `dict`: an existing key keeps
its position and has its value replaced, a new key is appended at the end. -/
def dictInsert {α : Type} : List (PyStr × α) → PyStr → α → List (PyStr × α)
  | [], k, v => [(k, v)]
  | (k2, v2) :: rest, k, v =>
    if k2 = k then (k, v) :: rest else (k2, v2) :: dictInsert rest k v

/-- Python `d.get(k)` on an insertion-ordered `dict`. -/
def dictGet {α : Type} : List (PyStr × α) → PyStr → Option α
  | [], _ => none
  | (k2, v) :: rest, k => if k2 = k then some v else dictGet rest k

/-- List read with a default (arena access; node ids are always in range). -/
def listGet {α : Type} : List α → Nat → α → α
  | [], _, d => d
  | x :: _, 0, _ => x
  | _ :: rest, n + 1, d => listGet rest n d

/-- List update at an index (mutation of one arena node). -/
def listSet {α : Type} : List α → Nat → α → List α
  | [], _, _ => []
  | _ :: rest, 0, a => a :: rest
  | x :: rest, n + 1, a => x :: listSet rest n a

/-- Parser state: the arena of mapping nodes (node 0 is the root dict) and
the frame stack; the head of the list is the top of the Python stack. -/
structure PState where
  arena : List Node
  stack : List (Int × Nat)
deriving DecidableEq, Repr

/-- Initially `stack = [(-1, root)]` with a fresh empty root dict (lines 19-20). -/
def initState : PState := ⟨[[]], [(-1, 0)]⟩

/-- The `while stack and indent <= stack[-1][0]: stack.pop()` loop
(lines 30-31); the head of the list is the Python `stack[-1]`. -/
def popWhile (indent : Int) : List (Int × Nat) → List (Int × Nat)
  | [] => []
  | f :: rest => if indent ≤ f.1 then popWhile indent rest else f :: rest

/-- The body of one parser iteration after the pop loop (lines 33-49),
given the already-popped stack: reads `stack[-1]` (raising, i.e. `none`,
when the stack is empty), then inserts the key's value into the parent
node, pushing a new frame only in the blank-value case. -/
def insertStep (st : PState) (indent : Int) (key value : PyStr) :
    List (Int × Nat) → Option PState
  | [] => none
  | (d, topId) :: rest =>
      let parent := listGet st.arena topId []
      if value = [] then
        -- lines 34-38: fresh nested dict, inserted under the key and pushed
        let nodeId := st.arena.length
        some ⟨listSet (st.arena ++ [[]]) topId (dictInsert parent key (Val.mapRef nodeId)),
              (indent, nodeId) :: (d, topId) :: rest⟩
      else if value = "[]".data then
        -- lines 40-41: the empty-list literal
        some ⟨listSet st.arena topId (dictInsert parent key Val.emptyList),
              (d, topId) :: rest⟩
      else if value = "\x7b\x7d".data then
        -- lines 40-41: the empty-dict literal (a fresh dict, not pushed)
        let nodeId := st.arena.length
        some ⟨listSet (st.arena ++ [[]]) topId (dictInsert parent key (Val.mapRef nodeId)),
              (d, topId) :: rest⟩
      else
        -- lines 43-49: scalar with quote stripping
        some ⟨listSet st.arena topId (dictInsert parent key (Val.scalar (stripQuotes value))),
              (d, topId) :: rest⟩

/-- One iteration of the parser loop (lines 21-49) on one raw line:
skip blank and comment lines, compute the indentation, split at the first
colon, pop stale frames, then insert. -/
def parseLine (st : PState) (raw : String) : Option PState :=
  let stripped := pyStrip raw.data
  if stripped = [] ∨ stripped.headD ' ' = '#' then
    some st
  else
    let indent : Int := (indentOf raw.data : Nat)
    let key := (partitionColon stripped).1
    let value := pyStrip (partitionColon stripped).2
    insertStep st indent key value (popWhile indent st.stack)

/-- The parser loop over all input lines. -/
def parseLines : PState → List String → Option PState
  | st, [] => some st
  | st, raw :: rest =>
    match parseLine st raw with
    | none => none
    | some st2 => parseLines st2 rest

/-- The parser `parse_yaml(lines)` (lines 12-51).  The Python function returns the root
dict object, which still references its child dicts; in the arena model the
result is the final arena, whose node 0 is the root mapping.  `none` models
the (never reached) `IndexError` on an emptied stack. -/
def parse_yaml (lines : List String) : Option (List Node) :=
  match parseLines initState lines with
  | none => none
  | some st => some st.arena

/-- Python truthiness of a parsed value (`if host:` ...): a string is truthy
iff non-empty, a dict iff the referenced node is non-empty, the empty list
literal is falsy. -/
def truthyVal (arena : List Node) : Val → Bool
  | Val.scalar s => !s.isEmpty
  | Val.mapRef i => !(listGet arena i []).isEmpty
  | Val.emptyList => false

/-- Truthiness of an optional value: Python `None` is falsy. -/
def truthyOpt (arena : List Node) : Option Val → Bool
  | none => false
  | some v => truthyVal arena v

/-- Python `repr` of a string, for strings without characters that `repr`
would escape: single quotes, unless the string contains a single quote and
no double quote.  (Escape sequences inside `repr` are not modelled; no
claim depends on them.) -/
def reprStr (s : PyStr) : PyStr :=
  if s.contains '\x27' && !(s.contains '"') then '"' :: (s ++ ['"'])
  else '\x27' :: (s ++ ['\x27'])

/-- Comma-space join used by Python container `repr`. -/
def joinComma : List PyStr → PyStr
  | [] => []
  | [s] => s
  | s :: rest => s ++ ", ".data ++ joinComma rest

/-- Python `repr` of a parsed value, with fuel for the dict nesting.
References always point to nodes created strictly later than their
containing node, so fuel `arena.length` gives the exact result. -/
def reprVal (arena : List Node) : Nat → Val → PyStr
  | _, Val.scalar s => reprStr s
  | _, Val.emptyList => "[]".data
  | 0, Val.mapRef _ => []
  | fuel + 1, Val.mapRef i =>
      '\x7b' :: (joinComma ((listGet arena i []).map
        (fun p => reprStr p.1 ++ ": ".data ++ reprVal arena fuel p.2)) ++ ['\x7d'])

/-- Python `str(x)` as used by the f-strings of `main`: a string prints as
itself, containers print as their `repr`. -/
def pyStr (arena : List Node) : Val → PyStr
  | Val.scalar s => s
  | v => reprVal arena arena.length v

/-- Lines 65-66: `host = config.get("ingress", \x7b\x7d).get("host")`
guarded by `isinstance`; a missing key yields the empty dict default, whose
`get` yields `None`, and a non-dict `ingress` fails the `isinstance` test. -/
def hostOpt (arena : List Node) (config : Node) : Option Val :=
  match dictGet config ("ingress".data) with
  | some (Val.mapRef i) => dictGet (listGet arena i []) ("host".data)
  | some _ => none
  | none => none

/-- Lines 68-73: the `secrets` dict, `\x7b\x7d` unless `secrets.data` is a
dict (the defaults for missing keys are empty dicts). -/
def secretsNode (arena : List Node) (config : Node) : Node :=
  match dictGet config ("secrets".data) with
  | some (Val.mapRef i) =>
      match dictGet (listGet arena i []) ("data".data) with
      | some (Val.mapRef j) => listGet arena j []
      | some _ => []
      | none => []
  | some _ => []
  | none => []

/-- Lines 76-81: the `grafana` dict, `\x7b\x7d` unless
`observability.grafana` is a dict. -/
def grafanaNode (arena : List Node) (config : Node) : Node :=
  match dictGet config ("observability".data) with
  | some (Val.mapRef i) =>
      match dictGet (listGet arena i []) ("grafana".data) with
      | some (Val.mapRef j) => listGet arena j []
      | some _ => []
      | none => []
  | some _ => []
  | none => []

/-- Lines 83-84: the ingress print, emitted when `host` is truthy. -/
def hostLines (arena : List Node) (host : Option Val) : List PyStr :=
  match host with
  | some h =>
      if truthyVal arena h then
        ["Ingress URL: http://".data ++ pyStr arena h ++ ":8080".data]
      else []
  | none => []

/-- Lines 86-90: the postgres print; `postgres` defaults to the empty dict,
whose `get`s yield `None`, and a non-dict fails `isinstance`. -/
def postgresLines (arena : List Node) (postgres : Option Val) : List PyStr :=
  match postgres with
  | some (Val.mapRef i) =>
      match dictGet (listGet arena i []) ("username".data),
            dictGet (listGet arena i []) ("password".data) with
      | some u, some p =>
          if truthyVal arena u && truthyVal arena p then
            ["Postgres credentials: ".data ++ pyStr arena u ++ "/".data ++ pyStr arena p]
          else []
      | _, _ => []
  | some _ => []
  | none => []

/-- Lines 92-94: the SMTP print. -/
def smtpLines (arena : List Node) (secrets : Node) : List PyStr :=
  match dictGet secrets ("SMTP_URL".data) with
  | some v => if truthyVal arena v then ["SMTP URL: ".data ++ pyStr arena v] else []
  | none => []

/-- Lines 96-98: the JWT print. -/
def jwtLines (arena : List Node) (secrets : Node) : List PyStr :=
  match dictGet secrets ("JWT_SECRET".data) with
  | some v => if truthyVal arena v then ["JWT secret: ".data ++ pyStr arena v] else []
  | none => []

/-- Lines 100-103: the grafana print. -/
def grafanaLines (arena : List Node) (grafana : Node) : List PyStr :=
  match dictGet grafana ("adminUser".data), dictGet grafana ("adminPassword".data) with
  | some u, some p =>
      if truthyVal arena u && truthyVal arena p then
        ["Grafana credentials: ".data ++ pyStr arena u ++ "/".data ++ pyStr arena p]
      else []
  | _, _ => []

/-- The reporting part of `main` (lines 65-103): the printed lines, in
program order, for the parsed tree given by `arena` (root at node 0). -/
def report (arena : List Node) : List PyStr :=
  let config := listGet arena 0 []
  hostLines arena (hostOpt arena config)
    ++ postgresLines arena (dictGet config ("postgres".data))
    ++ smtpLines arena (secretsNode arena config)
    ++ jwtLines arena (secretsNode arena config)
    ++ grafanaLines arena (grafanaNode arena config)

/-- The entry point `main` (lines 54-103) as a function of the read attempt on the
configuration file: `none` models `FileNotFoundError` (handled by the early
`return` on line 61), `some lines` the file's lines.  The result is the
list of printed lines.  The inner `none` branch is unreachable because the
parser is total (see the parser theorems below). -/
def mainOutput : Option (List String) → List PyStr
  | none => []
  | some lines =>
    match parse_yaml lines with
    | some arena => report arena
    | none => []

/-! ### Observations on parsed trees (used only to state properties) -/

/-- The three kinds of values of a parsed tree. -/
inductive Kind where
  | kScalar : Kind
  | kMap : Kind
  | kList : Kind
deriving DecidableEq, Repr

/-- Kind of a parsed value. -/
def kindOf : Val → Kind
  | Val.scalar _ => Kind.kScalar
  | Val.mapRef _ => Kind.kMap
  | Val.emptyList => Kind.kList

/-- The scalar content of a parsed value, when it is a scalar. -/
def scalarOf : Val → Option PyStr
  | Val.scalar s => some s
  | _ => none

/-- The keys of a parsed value, in insertion order, when it is a mapping. -/
def keysOf (arena : List Node) : Val → Option (List PyStr)
  | Val.mapRef i => some ((listGet arena i []).map Prod.fst)
  | _ => none

/-- Walk a parsed tree along a key path, failing when a segment is missing
or when an intermediate value is not a mapping. -/
def lookupA (arena : List Node) : Node → List PyStr → Option Val
  | _, [] => none
  | m, [k] => dictGet m k
  | m, k :: rest =>
    match dictGet m k with
    | some (Val.mapRef i) => lookupA arena (listGet arena i []) rest
    | _ => none

/-- One step of a lookup chain: Python `parent.get(k)` guarded by
`isinstance(parent, dict)`, where a missing parent defaults to the empty
dict (whose `get` yields `None`). -/
def childGet (arena : List Node) : Option Val → PyStr → Option Val
  | some (Val.mapRef i), k => dictGet (listGet arena i []) k
  | _, _ => none

/-- Scalar observed at a path of the tree parsed from `lines`. -/
def obsScalar (lines : List String) (path : List PyStr) : Option PyStr :=
  match parse_yaml lines with
  | some arena => (lookupA arena (listGet arena 0 []) path).bind scalarOf
  | none => none

/-- Kind observed at a path of the tree parsed from `lines`. -/
def obsKind (lines : List String) (path : List PyStr) : Option Kind :=
  match parse_yaml lines with
  | some arena => (lookupA arena (listGet arena 0 []) path).map kindOf
  | none => none

/-- Keys observed at a path of the tree parsed from `lines`. -/
def obsKeys (lines : List String) (path : List PyStr) : Option (List PyStr) :=
  match parse_yaml lines with
  | some arena => (lookupA arena (listGet arena 0 []) path).bind (keysOf arena)
  | none => none

/-- Whether `s` starts with the pattern `pat`. -/
def leadsWith : PyStr → PyStr → Bool
  | [], _ => true
  | _ :: _, [] => false
  | p :: ps, c :: cs => p == c && leadsWith ps cs

/-- How many lines of `out` start with the template text `pat`. -/
def countLead (pat : PyStr) (out : List PyStr) : Nat :=
  (out.filter (fun l => leadsWith pat l)).length


/-! ### The parser stack invariant -/

/-- The bottom (Python `stack[0]`) frame of the stack sits at depth `-1`:
it is the root frame installed on line 20. -/
def rootAnchored : List (Int × Nat) → Bool
  | [] => false
  | [f] => f.1 == -1
  | _ :: rest => rootAnchored rest

/-- Depths strictly decrease from the top (head) to the bottom (root); this
is the Python stack being strictly increasing from bottom to top. -/
def strictDesc : List (Int × Nat) → Bool
  | [] => true
  | [_] => true
  | a :: b :: rest => decide (b.1 < a.1) && strictDesc (b :: rest)

/-- The full stack invariant of a parser state. -/
def stackOK (st : PState) : Bool :=
  rootAnchored st.stack && strictDesc st.stack

theorem rootAnchored_ne_nil {l : List (Int × Nat)} (h : rootAnchored l = true) :
    l ≠ [] := by
  cases l with
  | nil => simp [rootAnchored] at h
  | cons f rest => simp

theorem strictDesc_tail {f : Int × Nat} {l : List (Int × Nat)}
    (h : strictDesc (f :: l) = true) : strictDesc l = true := by
  cases l with
  | nil => rfl
  | cons g rest =>
    rw [strictDesc, Bool.and_eq_true] at h
    exact h.2

theorem strictDesc_all {f : Int × Nat} {l : List (Int × Nat)}
    (h : strictDesc (f :: l) = true) : ∀ g ∈ l, g.1 < f.1 := by
  induction l generalizing f with
  | nil => intro g hg; simp at hg
  | cons g rest ih =>
    intro g2 hg2
    have hgf : g.1 < f.1 := by
      rw [strictDesc, Bool.and_eq_true, decide_eq_true_eq] at h
      exact h.1
    have hrest : strictDesc (g :: rest) = true := by
      rw [strictDesc, Bool.and_eq_true] at h
      exact h.2
    rcases List.mem_cons.mp hg2 with rfl | hmem
    · exact hgf
    · exact lt_trans (ih hrest g2 hmem) hgf

theorem popWhile_root {i : Int} (hi : 0 ≤ i) :
    ∀ l : List (Int × Nat), rootAnchored l = true →
      rootAnchored (popWhile i l) = true ∧ popWhile i l ≠ [] := by
  intro l
  induction l with
  | nil => intro h; simp [rootAnchored] at h
  | cons f rest ih =>
    intro h
    cases rest with
    | nil =>
      have hf : f.1 = -1 := by simpa [rootAnchored] using h
      have hcond : ¬ i ≤ f.1 := by omega
      have hni : ¬ i ≤ (-1 : Int) := by omega
      constructor
      · simp [popWhile, hf, hni, rootAnchored]
      · simp [popWhile, hcond]
    | cons g rest2 =>
      have h2 : rootAnchored (g :: rest2) = true := h
      by_cases hcond : i ≤ f.1
      · simpa [popWhile, hcond] using ih h2
      · refine ⟨?_, by simp [popWhile, hcond]⟩
        simpa [popWhile, hcond, rootAnchored] using h2

theorem popWhile_strictDesc {i : Int} :
    ∀ {l : List (Int × Nat)}, strictDesc l = true →
      strictDesc (popWhile i l) = true := by
  intro l
  induction l with
  | nil => intro h; exact h
  | cons f rest ih =>
    intro h
    by_cases hcond : i ≤ f.1
    · simp only [popWhile, if_pos hcond]
      exact ih (strictDesc_tail h)
    · simp only [popWhile, if_neg hcond]
      exact h

theorem popWhile_head_lt {i : Int} :
    ∀ {l : List (Int × Nat)} {f : Int × Nat} {r : List (Int × Nat)},
      popWhile i l = f :: r → f.1 < i := by
  intro l
  induction l with
  | nil => intro f r h; simp [popWhile] at h
  | cons g rest ih =>
    intro f r h
    by_cases hcond : i ≤ g.1
    · simp only [popWhile, if_pos hcond] at h
      exact ih h
    · simp only [popWhile, if_neg hcond, List.cons.injEq] at h
      obtain ⟨rfl, rfl⟩ := h
      omega

theorem popWhile_filter {i : Int} :
    ∀ {l : List (Int × Nat)}, strictDesc l = true →
      popWhile i l = l.filter (fun f => decide (f.1 < i)) := by
  intro l
  induction l with
  | nil => intro h; rfl
  | cons f rest ih =>
    intro h
    by_cases hcond : i ≤ f.1
    · have hnlt : ¬ f.1 < i := by omega
      simp only [popWhile, if_pos hcond, List.filter_cons, decide_eq_true_eq,
        if_neg hnlt]
      exact ih (strictDesc_tail h)
    · have hf : f.1 < i := by omega
      have hall : ∀ g ∈ rest, decide (g.1 < i) = true := by
        intro g hg
        have := strictDesc_all h g hg
        simp only [decide_eq_true_eq]
        omega
      simp only [popWhile, if_neg hcond, List.filter_cons, decide_eq_true_eq,
        if_pos hf, List.cons.injEq, true_and]
      exact (List.filter_eq_self.mpr hall).symm

theorem parseLine_total (st : PState) (raw : String) (h : stackOK st = true) :
    ∃ st2, parseLine st raw = some st2 ∧ stackOK st2 = true := by
  have hok := h
  rw [stackOK, Bool.and_eq_true] at hok
  obtain ⟨hanch, hdesc⟩ := hok
  by_cases hskip : pyStrip raw.data = [] ∨ (pyStrip raw.data).headD ' ' = '#'
  · refine ⟨st, ?_, h⟩
    simp only [parseLine]
    rw [if_pos hskip]
  · have hi : (0 : Int) ≤ ((indentOf raw.data : Nat) : Int) := Int.natCast_nonneg _
    obtain ⟨hanch2, hne⟩ := popWhile_root hi st.stack hanch
    have hdesc2 := popWhile_strictDesc (i := ((indentOf raw.data : Nat) : Int)) hdesc
    simp only [parseLine, if_neg hskip]
    rcases hpw : popWhile ((indentOf raw.data : Nat) : Int) st.stack with _ | ⟨⟨fd, ftop⟩, r⟩
    · exact absurd hpw hne
    · rw [hpw] at hanch2 hdesc2
      have hlt : fd < ((indentOf raw.data : Nat) : Int) := popWhile_head_lt hpw
      simp only [insertStep]
      by_cases hv0 : pyStrip (partitionColon (pyStrip raw.data)).2 = []
      · rw [if_pos hv0]
        refine ⟨_, rfl, ?_⟩
        simp [stackOK, rootAnchored, strictDesc, hanch2, hdesc2, hlt]
      · rw [if_neg hv0]
        by_cases hv1 : pyStrip (partitionColon (pyStrip raw.data)).2 = "[]".data
        · rw [if_pos hv1]
          refine ⟨_, rfl, ?_⟩
          simp [stackOK, hanch2, hdesc2]
        · rw [if_neg hv1]
          by_cases hv2 : pyStrip (partitionColon (pyStrip raw.data)).2 = "\x7b\x7d".data
          · rw [if_pos hv2]
            refine ⟨_, rfl, ?_⟩
            simp [stackOK, hanch2, hdesc2]
          · rw [if_neg hv2]
            refine ⟨_, rfl, ?_⟩
            simp [stackOK, hanch2, hdesc2]

theorem parseLines_total :
    ∀ (lines : List String) (st : PState), stackOK st = true →
      ∃ st2, parseLines st lines = some st2 ∧ stackOK st2 = true := by
  intro lines
  induction lines with
  | nil => intro st h; exact ⟨st, rfl, h⟩
  | cons raw rest ih =>
    intro st h
    obtain ⟨st2, h1, h2⟩ := parseLine_total st raw h
    obtain ⟨st3, h3, h4⟩ := ih st2 h2
    exact ⟨st3, by simp [parseLines, h1, h3], h4⟩

theorem initState_OK : stackOK initState = true := by decide

/-! ### Counting printed lines by their templates -/

theorem countLead_append (p : PyStr) (a b : List PyStr) :
    countLead p (a ++ b) = countLead p a + countLead p b := by
  simp [countLead, List.filter_append]

theorem countLead_singleton (p l : PyStr) :
    countLead p [l] = if leadsWith p l = true then 1 else 0 := by
  by_cases h : leadsWith p l = true <;> simp [countLead, h]

theorem counts_hostLines (arena : List Node) (o : Option Val) :
    countLead ("Ingress URL: ".data) (hostLines arena o)
        = (if truthyOpt arena o = true then 1 else 0)
  ∧ countLead ("Postgres credentials: ".data) (hostLines arena o) = 0
  ∧ countLead ("SMTP URL: ".data) (hostLines arena o) = 0
  ∧ countLead ("JWT secret: ".data) (hostLines arena o) = 0
  ∧ countLead ("Grafana credentials: ".data) (hostLines arena o) = 0 := by
  rcases o with _ | h
  · simp [hostLines, truthyOpt, countLead]
  · by_cases ht : truthyVal arena h = true
    · simp [hostLines, ht, truthyOpt, countLead_singleton]
      exact ⟨rfl, rfl, rfl, rfl, rfl⟩
    · simp [hostLines, ht, truthyOpt, countLead]

theorem counts_postgresLines (arena : List Node) (o : Option Val) :
    countLead ("Ingress URL: ".data) (postgresLines arena o) = 0
  ∧ countLead ("Postgres credentials: ".data) (postgresLines arena o)
      = (if (truthyOpt arena (childGet arena o ("username".data))
            && truthyOpt arena (childGet arena o ("password".data))) = true then 1 else 0)
  ∧ countLead ("SMTP URL: ".data) (postgresLines arena o) = 0
  ∧ countLead ("JWT secret: ".data) (postgresLines arena o) = 0
  ∧ countLead ("Grafana credentials: ".data) (postgresLines arena o) = 0 := by
  rcases o with _ | v
  · simp [postgresLines, childGet, truthyOpt, countLead]
  · cases v with
    | scalar s => simp [postgresLines, childGet, truthyOpt, countLead]
    | emptyList => simp [postgresLines, childGet, truthyOpt, countLead]
    | mapRef i =>
      cases hu : dictGet (listGet arena i []) ("username".data) with
      | none => simp [postgresLines, childGet, truthyOpt, hu, countLead]
      | some u =>
        cases hp : dictGet (listGet arena i []) ("password".data) with
        | none => simp [postgresLines, childGet, truthyOpt, hu, hp, countLead]
        | some p =>
          by_cases htr : (truthyVal arena u && truthyVal arena p) = true
          · simp [postgresLines, hu, hp, htr, childGet, truthyOpt, countLead_singleton]
            exact ⟨rfl, rfl, rfl, rfl, rfl⟩
          · simp [postgresLines, hu, hp, htr, childGet, truthyOpt, countLead]

theorem counts_smtpLines (arena : List Node) (m : Node) :
    countLead ("Ingress URL: ".data) (smtpLines arena m) = 0
  ∧ countLead ("Postgres credentials: ".data) (smtpLines arena m) = 0
  ∧ countLead ("SMTP URL: ".data) (smtpLines arena m)
      = (if truthyOpt arena (dictGet m ("SMTP_URL".data)) = true then 1 else 0)
  ∧ countLead ("JWT secret: ".data) (smtpLines arena m) = 0
  ∧ countLead ("Grafana credentials: ".data) (smtpLines arena m) = 0 := by
  cases hv : dictGet m ("SMTP_URL".data) with
  | none => simp [smtpLines, truthyOpt, hv, countLead]
  | some v =>
    by_cases ht : truthyVal arena v = true
    · simp [smtpLines, hv, ht, truthyOpt, countLead_singleton]
      exact ⟨rfl, rfl, rfl, rfl, rfl⟩
    · simp [smtpLines, hv, ht, truthyOpt, countLead]

theorem counts_jwtLines (arena : List Node) (m : Node) :
    countLead ("Ingress URL: ".data) (jwtLines arena m) = 0
  ∧ countLead ("Postgres credentials: ".data) (jwtLines arena m) = 0
  ∧ countLead ("SMTP URL: ".data) (jwtLines arena m) = 0
  ∧ countLead ("JWT secret: ".data) (jwtLines arena m)
      = (if truthyOpt arena (dictGet m ("JWT_SECRET".data)) = true then 1 else 0)
  ∧ countLead ("Grafana credentials: ".data) (jwtLines arena m) = 0 := by
  cases hv : dictGet m ("JWT_SECRET".data) with
  | none => simp [jwtLines, truthyOpt, hv, countLead]
  | some v =>
    by_cases ht : truthyVal arena v = true
    · simp [jwtLines, hv, ht, truthyOpt, countLead_singleton]
      exact ⟨rfl, rfl, rfl, rfl, rfl⟩
    · simp [jwtLines, hv, ht, truthyOpt, countLead]

theorem counts_grafanaLines (arena : List Node) (m : Node) :
    countLead ("Ingress URL: ".data) (grafanaLines arena m) = 0
  ∧ countLead ("Postgres credentials: ".data) (grafanaLines arena m) = 0
  ∧ countLead ("SMTP URL: ".data) (grafanaLines arena m) = 0
  ∧ countLead ("JWT secret: ".data) (grafanaLines arena m) = 0
  ∧ countLead ("Grafana credentials: ".data) (grafanaLines arena m)
      = (if (truthyOpt arena (dictGet m ("adminUser".data))
            && truthyOpt arena (dictGet m ("adminPassword".data))) = true then 1 else 0) := by
  cases hu : dictGet m ("adminUser".data) with
  | none => simp [grafanaLines, truthyOpt, hu, countLead]
  | some u =>
    cases hp : dictGet m ("adminPassword".data) with
    | none => simp [grafanaLines, truthyOpt, hu, hp, countLead]
    | some p =>
      by_cases htr : (truthyVal arena u && truthyVal arena p) = true
      · simp [grafanaLines, hu, hp, htr, truthyOpt, countLead_singleton]
        exact ⟨rfl, rfl, rfl, rfl, rfl⟩
      · simp [grafanaLines, hu, hp, htr, truthyOpt, countLead]

/-! ### Lookup chains of the reporter, as path lookups -/

theorem lookupA_pair (arena : List Node) (m : Node) (k1 k2 : PyStr) :
    lookupA arena m [k1, k2] = childGet arena (dictGet m k1) k2 := by
  cases h : dictGet m k1 with
  | none => simp [lookupA, childGet, h]
  | some v => cases v <;> simp [lookupA, childGet, h]

theorem hostOpt_eq (arena : List Node) (config : Node) :
    hostOpt arena config = childGet arena (dictGet config ("ingress".data)) ("host".data) := by
  cases h : dictGet config ("ingress".data) with
  | none => simp [hostOpt, childGet, h]
  | some v => cases v <;> simp [hostOpt, childGet, h]

theorem secretsNode_eq (arena : List Node) (config : Node) (k : PyStr) :
    dictGet (secretsNode arena config) k
      = lookupA arena config ["secrets".data, "data".data, k] := by
  cases h1 : dictGet config ("secrets".data) with
  | none => simp [lookupA, secretsNode, h1, dictGet]
  | some v =>
    cases v with
    | scalar s => simp [lookupA, secretsNode, h1, dictGet]
    | emptyList => simp [lookupA, secretsNode, h1, dictGet]
    | mapRef i =>
      cases h2 : dictGet (listGet arena i []) ("data".data) with
      | none => simp [lookupA, secretsNode, h1, h2, dictGet]
      | some w => cases w <;> simp [lookupA, secretsNode, h1, h2, dictGet]

theorem grafanaNode_eq (arena : List Node) (config : Node) (k : PyStr) :
    dictGet (grafanaNode arena config) k
      = lookupA arena config ["observability".data, "grafana".data, k] := by
  cases h1 : dictGet config ("observability".data) with
  | none => simp [lookupA, grafanaNode, h1, dictGet]
  | some v =>
    cases v with
    | scalar s => simp [lookupA, grafanaNode, h1, dictGet]
    | emptyList => simp [lookupA, grafanaNode, h1, dictGet]
    | mapRef i =>
      cases h2 : dictGet (listGet arena i []) ("grafana".data) with
      | none => simp [lookupA, grafanaNode, h1, h2, dictGet]
      | some w => cases w <;> simp [lookupA, grafanaNode, h1, h2, dictGet]

/-! ### Claim theorems -/

/-- C2: `parse_yaml` terminates normally and returns a root mapping for
every finite sequence of input lines, never raising: the root frame stored
at depth `-1` can never be popped (indentations are counts of leading
spaces, hence `≥ 0`), so every access to the top of the frame stack
happens on a non-empty stack. -/
theorem c2_parser_total (lines : List String) :
    ∃ arena, parse_yaml lines = some arena := by
  obtain ⟨st, h1, _⟩ := parseLines_total lines initState initState_OK
  exact ⟨st.arena, by simp [parse_yaml, h1]⟩

/-- C3: after parsing any prefix of the input (any line list reaching state
`st`), the frame stack is non-empty, anchored at the root frame of depth
`-1`, and strictly increasing in depth from the root (bottom of the Python
stack, last element here) to the top (head here); consequently, for any
incoming indentation `i`, popping removes exactly the frames of depth
`≥ i` — `popWhile` equals filtering to the frames of depth `< i` — so the
insertion target (the new top) is the deepest remaining ancestor. -/
theorem c3_stack_invariant (lines : List String) (st : PState)
    (h : parseLines initState lines = some st) (i : Nat) :
    st.stack ≠ [] ∧ rootAnchored st.stack = true ∧ strictDesc st.stack = true ∧
      popWhile ((i : Nat) : Int) st.stack
        = st.stack.filter (fun f => decide (f.1 < ((i : Nat) : Int))) := by
  obtain ⟨st2, h1, h2⟩ := parseLines_total lines initState initState_OK
  have hst : st2 = st := Option.some.inj (h1.symm.trans h)
  subst hst
  rw [stackOK, Bool.and_eq_true] at h2
  obtain ⟨hanch, hdesc⟩ := h2
  exact ⟨rootAnchored_ne_nil hanch, hanch, hdesc, popWhile_filter hdesc⟩

theorem c3_stack_invariant_witness :
    parseLines initState ["a:", "  b: v"]
        = some (PState.mk [[(['a'], Val.mapRef 1)], [(['b'], Val.scalar ['v'])]]
            [(0, 1), (-1, 0)]) ∧
      ((PState.mk [[(['a'], Val.mapRef 1)], [(['b'], Val.scalar ['v'])]]
          [(0, 1), (-1, 0)]).stack ≠ [] ∧
        rootAnchored (PState.mk [[(['a'], Val.mapRef 1)], [(['b'], Val.scalar ['v'])]]
          [(0, 1), (-1, 0)]).stack = true ∧
        strictDesc (PState.mk [[(['a'], Val.mapRef 1)], [(['b'], Val.scalar ['v'])]]
          [(0, 1), (-1, 0)]).stack = true ∧
        popWhile (((1 : Nat) : Nat) : Int)
            (PState.mk [[(['a'], Val.mapRef 1)], [(['b'], Val.scalar ['v'])]]
              [(0, 1), (-1, 0)]).stack
          = (PState.mk [[(['a'], Val.mapRef 1)], [(['b'], Val.scalar ['v'])]]
              [(0, 1), (-1, 0)]).stack.filter
              (fun f => decide (f.1 < (((1 : Nat) : Nat) : Int)))) :=
  ⟨by decide, c3_stack_invariant ["a:", "  b: v"] _ (by decide) 1⟩

/-- C4: a raw value that starts and ends with `"`, or starts and ends with
`'` (the script's reading of "wrapped in a single matching pair of
quotes"), has exactly that one pair stripped (`value[1:-1]`); any other
value is kept unmodified.  End to end: `"secret value"` parses to the
scalar `secret value`, `'x'` to `x`, and `va"l` stays `va"l`. -/
theorem c4_quote_stripping :
    (∀ v : PyStr,
        ((v.headD ' ' = '"' ∧ v.getLast? = some '"')
          ∨ (v.headD ' ' = '\x27' ∧ v.getLast? = some '\x27')) →
        stripQuotes v = (v.drop 1).dropLast)
  ∧ (∀ v : PyStr,
        ¬((v.headD ' ' = '"' ∧ v.getLast? = some '"')
          ∨ (v.headD ' ' = '\x27' ∧ v.getLast? = some '\x27')) →
        stripQuotes v = v)
  ∧ obsScalar ["k: \"secret value\""] ["k".data] = some ("secret value".data)
  ∧ obsScalar ["k: \x27x\x27"] ["k".data] = some ("x".data)
  ∧ obsScalar ["k: va\"l"] ["k".data] = some ("va\"l".data) := by
  refine ⟨?_, ?_, by decide, by decide, by decide⟩
  · intro v h
    rw [stripQuotes, if_pos h]
  · intro v h
    rw [stripQuotes, if_neg h]

theorem c4_quote_stripping_witness :
    stripQuotes ("\"ab\"".data) = ((("\"ab\"".data : PyStr)).drop 1).dropLast
  ∧ stripQuotes ("ab".data) = "ab".data :=
  ⟨c4_quote_stripping.1 ("\"ab\"".data) (by decide),
   c4_quote_stripping.2.1 ("ab".data) (by decide)⟩

/-- C5: a line whose value is the literal `\x7b\x7d` inserts an empty
mapping, one whose value is `[]` inserts an empty sequence, and in neither
case is a frame pushed: the stack after the insertion step is exactly the
popped stack.  Concretely, after `a:` / `  data: \x7b\x7d` / `    x: y`
the deeper line attaches under `a` (the mapping on top of the stack), not
under `data`, and likewise for `[]`. -/
theorem c5_empty_containers :
    (∀ (st : PState) (indent : Int) (key value : PyStr) (stk : List (Int × Nat)),
        stk ≠ [] →
        (value = "[]".data ∨ value = "\x7b\x7d".data) →
        Option.map PState.stack (insertStep st indent key value stk) = some stk)
  ∧ obsKind ["a:", "  data: \x7b\x7d", "    x: y"] ["a".data, "data".data] = some Kind.kMap
  ∧ obsKeys ["a:", "  data: \x7b\x7d", "    x: y"] ["a".data, "data".data] = some []
  ∧ obsScalar ["a:", "  data: \x7b\x7d", "    x: y"] ["a".data, "x".data] = some ("y".data)
  ∧ obsKind ["a:", "  data: []", "    x: y"] ["a".data, "data".data] = some Kind.kList
  ∧ obsScalar ["a:", "  data: []", "    x: y"] ["a".data, "x".data] = some ("y".data) := by
  refine ⟨?_, by decide, by decide, by decide, by decide, by decide⟩
  intro st indent key value stk hne hval
  rcases stk with _ | ⟨⟨d, t⟩, rest⟩
  · exact absurd rfl hne
  · rcases hval with rfl | rfl
    · have h1 : ¬(("[]".data : PyStr) = []) := by decide
      simp [insertStep, h1]
    · have h1 : ¬(("\x7b\x7d".data : PyStr) = []) := by decide
      have h2 : ¬(("\x7b\x7d".data : PyStr) = "[]".data) := by decide
      simp [insertStep, h1, h2]

theorem c5_empty_containers_witness :
    Option.map PState.stack (insertStep initState 0 ("a".data) ("[]".data) [(-1, 0)])
      = some [(-1, 0)] :=
  c5_empty_containers.1 initState 0 ("a".data) ("[]".data) [(-1, 0)]
    (by decide) (Or.inl rfl)

/-- C6: a retained line is split at its first `:` only — the key is the
part of the trimmed line before the first colon, the raw value everything
after it, so later colons stay in the value — and a line without `:`
yields the whole trimmed line as key with an empty value (which the parser
treats as an empty nested mapping).  End to end,
`SMTP_URL: smtp://localhost:1025` keeps the value `smtp://localhost:1025`
intact. -/
theorem c6_first_colon_split :
    (∀ a b : PyStr, ':' ∉ a → partitionColon (a ++ ':' :: b) = (a, b))
  ∧ (∀ s : PyStr, ':' ∉ s → partitionColon s = (s, []))
  ∧ obsScalar ["SMTP_URL: smtp://localhost:1025"] ["SMTP_URL".data]
      = some ("smtp://localhost:1025".data)
  ∧ obsKind ["standalone"] ["standalone".data] = some Kind.kMap
  ∧ obsKeys ["standalone"] ["standalone".data] = some [] := by
  refine ⟨?_, ?_, by decide, by decide, by decide⟩
  · intro a
    induction a with
    | nil => intro b h; simp [partitionColon]
    | cons c rest ih =>
      intro b h
      have hc : ¬ c = ':' := by
        intro hcc
        exact h (by simp [hcc])
      have hrest : ':' ∉ rest := fun hm => h (List.mem_cons_of_mem _ hm)
      simp [partitionColon, hc, ih b hrest]
  · intro s
    induction s with
    | nil => intro h; rfl
    | cons c rest ih =>
      intro h
      have hc : ¬ c = ':' := by
        intro hcc
        exact h (by simp [hcc])
      have hrest : ':' ∉ rest := fun hm => h (List.mem_cons_of_mem _ hm)
      simp [partitionColon, hc, ih hrest]

theorem c6_first_colon_split_witness :
    partitionColon ("ab".data ++ ':' :: "c:d".data) = ("ab".data, "c:d".data)
  ∧ partitionColon ("abc".data) = ("abc".data, []) :=
  ⟨c6_first_colon_split.1 ("ab".data) ("c:d".data) (by decide),
   c6_first_colon_split.2.1 ("abc".data) (by decide)⟩

/-- C7: inserting the same key twice into the same parent mapping leaves
the second value (Python dict assignment semantics: last write wins), and
end to end a lookup after two lines with the same key at the same level
under the same parent returns the second line's value. -/
theorem c7_last_write_wins :
    (∀ (m : List (PyStr × Val)) (k : PyStr) (v1 v2 : Val),
        dictGet (dictInsert (dictInsert m k v1) k v2) k = some v2)
  ∧ obsScalar ["a: 1", "a: 2"] ["a".data] = some ("2".data)
  ∧ obsScalar ["p:", "  a: 1", "  a: 2"] ["p".data, "a".data] = some ("2".data) := by
  refine ⟨?_, by decide, by decide⟩
  intro m k v1 v2
  induction m with
  | nil => simp [dictInsert, dictGet]
  | cons e rest ih =>
    obtain ⟨k2, w⟩ := e
    by_cases hk : k2 = k
    · subst hk
      simp [dictInsert, dictGet]
    · simp [dictInsert, hk, dictGet, ih]

/-- C8: parsing the 8-line example input and reporting emits exactly the
ingress, postgres and SMTP lines, in that order, with no Grafana or JWT
lines. -/
theorem c8_end_to_end :
    mainOutput (some ["ingress:", "  host: dev.local", "postgres:", "  username: admin",
        "  password: s3cr3t", "secrets:", "  data:", "    SMTP_URL: smtp://localhost:1025"])
      = ["Ingress URL: http://dev.local:8080".data,
         "Postgres credentials: admin/s3cr3t".data,
         "SMTP URL: smtp://localhost:1025".data] := by
  decide

/-- C9: when reading the configuration file fails with not-found, the
reporter returns immediately: zero lines of output and no error. -/
theorem c9_missing_source : mainOutput none = [] := rfl

/-- C10: a trimmed value consisting of exactly one quote character has the
quote-stripping branch fire (the single character is both the first and
the last character), and the inserted scalar is the empty string. -/
theorem c10_lone_quote :
    stripQuotes ['"'] = []
  ∧ stripQuotes ['\x27'] = []
  ∧ obsScalar ["k: \""] ["k".data] = some []
  ∧ obsScalar ["k: \x27"] ["k".data] = some [] := by
  decide

/-- C1 (amended): for every parsed tree, the reporter is total (no error is
ever raised) and each of the five report lines is printed exactly when its
leaf lookup(s) are Python-truthy — a non-empty string or a non-empty
mapping.  A missing path segment or a non-mapping intermediate node makes
the lookup fail, silently skipping the line, and an empty-container leaf
is falsy and also skipped; but a leaf bound to a non-empty mapping is
truthy, so its line IS printed (interpolating the mapping text), not
skipped — which is where the original claim fails, see the
counterexample. -/
theorem c1_truthiness_gate (arena : List Node) :
    countLead ("Ingress URL: ".data) (report arena)
        = (if truthyOpt arena (lookupA arena (listGet arena 0 [])
              ["ingress".data, "host".data]) = true then 1 else 0)
  ∧ countLead ("Postgres credentials: ".data) (report arena)
        = (if (truthyOpt arena (lookupA arena (listGet arena 0 [])
                ["postgres".data, "username".data])
              && truthyOpt arena (lookupA arena (listGet arena 0 [])
                ["postgres".data, "password".data])) = true then 1 else 0)
  ∧ countLead ("SMTP URL: ".data) (report arena)
        = (if truthyOpt arena (lookupA arena (listGet arena 0 [])
              ["secrets".data, "data".data, "SMTP_URL".data]) = true then 1 else 0)
  ∧ countLead ("JWT secret: ".data) (report arena)
        = (if truthyOpt arena (lookupA arena (listGet arena 0 [])
              ["secrets".data, "data".data, "JWT_SECRET".data]) = true then 1 else 0)
  ∧ countLead ("Grafana credentials: ".data) (report arena)
        = (if (truthyOpt arena (lookupA arena (listGet arena 0 [])
                ["observability".data, "grafana".data, "adminUser".data])
              && truthyOpt arena (lookupA arena (listGet arena 0 [])
                ["observability".data, "grafana".data, "adminPassword".data]))
            = true then 1 else 0) := by
  obtain ⟨a1, a2, a3, a4, a5⟩ :=
    counts_hostLines arena (hostOpt arena (listGet arena 0 []))
  obtain ⟨b1, b2, b3, b4, b5⟩ :=
    counts_postgresLines arena (dictGet (listGet arena 0 []) ("postgres".data))
  obtain ⟨s1, s2, s3, s4, s5⟩ :=
    counts_smtpLines arena (secretsNode arena (listGet arena 0 []))
  obtain ⟨j1, j2, j3, j4, j5⟩ :=
    counts_jwtLines arena (secretsNode arena (listGet arena 0 []))
  obtain ⟨g1, g2, g3, g4, g5⟩ :=
    counts_grafanaLines arena (grafanaNode arena (listGet arena 0 []))
  refine ⟨?_, ?_, ?_, ?_, ?_⟩
  · simp only [report, countLead_append, a1, b1, s1, j1, g1, Nat.add_zero, Nat.zero_add]
    rw [lookupA_pair, hostOpt_eq]
  · simp only [report, countLead_append, a2, b2, s2, j2, g2, Nat.add_zero, Nat.zero_add]
    rw [lookupA_pair, lookupA_pair]
  · simp only [report, countLead_append, a3, b3, s3, j3, g3, Nat.add_zero, Nat.zero_add]
    rw [secretsNode_eq]
  · simp only [report, countLead_append, a4, b4, s4, j4, g4, Nat.add_zero, Nat.zero_add]
    rw [secretsNode_eq]
  · simp only [report, countLead_append, a5, b5, s5, j5, g5, Nat.add_zero, Nat.zero_add]
    rw [grafanaNode_eq, grafanaNode_eq]

/-- C1 counterexample: with the input `ingress:` / `  host:` / `    x: y`
the leaf `ingress.host` is present but bound to a NON-EMPTY mapping rather
than a string, yet the Ingress output line IS printed (interpolating the
mapping's repr) instead of being silently skipped as the claim states. -/
theorem c1_wrong_kind_counterexample :
    obsKind ["ingress:", "  host:", "    x: y"] ["ingress".data, "host".data]
        = some Kind.kMap
  ∧ obsKeys ["ingress:", "  host:", "    x: y"] ["ingress".data, "host".data]
        = some ["x".data]
  ∧ mainOutput (some ["ingress:", "  host:", "    x: y"])
        = ["Ingress URL: http://\x7b\x27x\x27: \x27y\x27\x7d:8080".data]
  ∧ countLead ("Ingress URL: ".data)
        (mainOutput (some ["ingress:", "  host:", "    x: y"])) = 1 := by
  decide

end DevSummary
